import Mathlib

/-!
Verification development for the task-tracker application
(apps/tasks and apps/timelogs).

The Django models, permissions, serializer validation and view-level
orchestration are shallowly embedded as pure Lean functions over an
explicit relational `State` (the database).  Primary keys are `Nat`,
timestamps are `Nat`, decimal quantities are rationals (decimal
columns with two decimal places are stored as exact rationals; column
digit-capacity limits are not modelled).  Python exceptions raised
before any write (``ValidationError``) are modelled as `Except` /
`Option String` error results, and a Django ``transaction.atomic``
block is modelled as a function that returns the original state when
any step of its body fails.
-/

namespace TaskTracker

/-- Task.STATUS_CHOICES from apps/tasks/models.py. -/
inductive TaskStatus where
  | new
  | in_progress
  | review
  | completed
  | cancelled
deriving DecidableEq, Repr

/-- TaskItem.STATUS_CHOICES from apps/tasks/models.py. -/
inductive ItemStatus where
  | todo
  | in_progress
  | completed
  | blocked
deriving DecidableEq, Repr

/-- TaskRole.ROLE_CHOICES from apps/tasks/models.py. -/
inductive RoleKind where
  | assigner
  | co_executor
  | observer
deriving DecidableEq, Repr

/-- A user row: the identity provider supplies an id and a staff flag. -/
structure User where
  pk : Nat
  is_staff : Bool
deriving DecidableEq, Repr

/-- A Task row (fields relevant to the verified behaviour). -/
structure Task where
  pk : Nat
  title : String
  description : String
  status : TaskStatus
deriving DecidableEq, Repr

/-- A TaskRole row: (task, user, role) with its primary key. -/
structure TaskRole where
  pk : Nat
  task : Nat
  user : Nat
  role : RoleKind
deriving DecidableEq, Repr

/-- A TaskItem row.  `completed_at` is `none` for NULL. -/
structure TaskItem where
  pk : Nat
  task : Nat
  title : String
  description : String
  executor : Option Nat
  status : ItemStatus
  planned_hours : ℚ
  order : Nat
  completed_at : Option Nat
deriving DecidableEq, Repr

/-- A TimeLog object as handled by `TimeLog.clean`: `task_item` is the
in-memory related object (or `none`), mirroring `self.task_item` in
apps/timelogs/models.py.  `hours` is stored in hundredths (the column
has two decimal places), so the value is `hours_centi / 100`. -/
structure TimeLog where
  pk : Nat
  user : Nat
  task : Nat
  task_item : Option TaskItem
  date : Nat
  hours_centi : Int
  description : String
deriving DecidableEq, Repr

/-- The database: one table per model. -/
structure State where
  users : List User
  tasks : List Task
  roles : List TaskRole
  items : List TaskItem
  timelogs : List TimeLog
deriving DecidableEq, Repr

/-! ## TaskItem.save (apps/tasks/models.py)

```python
def save(self, *args, **kwargs):
    if self.status == 'completed' and not self.completed_at:
        self.completed_at = timezone.now()
    elif self.status != 'completed' and self.completed_at:
        self.completed_at = None
    super().save(*args, **kwargs)
```
-/

/-- Field adjustment performed by `TaskItem.save` before the row is
written; `now` is `timezone.now()`. -/
def TaskItem.save_fields (i : TaskItem) (now : Nat) : TaskItem :=
  if i.status = ItemStatus.completed ∧ i.completed_at = none then
    { i with completed_at := some now }
  else if i.status ≠ ItemStatus.completed ∧ i.completed_at ≠ none then
    { i with completed_at := none }
  else
    i

/-- `TaskItem.save`: adjust `completed_at` and write the row (replacing
the row with the same pk, or inserting it). -/
def TaskItem.save (s : State) (i : TaskItem) (now : Nat) : State :=
  let i' := TaskItem.save_fields i now
  if s.items.any (fun j => decide (j.pk = i.pk)) then
    { s with items := s.items.map (fun j => if j.pk = i.pk then i' else j) }
  else
    { s with items := s.items ++ [i'] }

/-! ## Permissions (apps/tasks/permissions.py) -/

/-- `IsTaskParticipant.has_object_permission` for a `Task` object:
staff pass; otherwise the user must hold some role on the task or be
executor of some of its items. -/
def IsTaskParticipant.has_object_permission (s : State) (u : User) (obj : Task) : Bool :=
  if u.is_staff then
    true
  else if s.roles.any (fun r => decide (r.task = obj.pk ∧ r.user = u.pk)) then
    true
  else if s.items.any (fun i => decide (i.task = obj.pk ∧ i.executor = some u.pk)) then
    true
  else
    false

/-- `IsTaskItemExecutorOrAssigner.has_object_permission`: staff pass;
the task's assigner passes; the item's executor passes only for a
PATCH/PUT whose request-data key set is a subset of `{'status'}`.
`dataKeys` are the keys of `request.data`. -/
def IsTaskItemExecutorOrAssigner.has_object_permission
    (s : State) (u : User) (method : String) (dataKeys : List String)
    (obj : TaskItem) : Bool :=
  if u.is_staff then
    true
  else if s.roles.any
      (fun r => decide (r.task = obj.task ∧ r.user = u.pk ∧ r.role = RoleKind.assigner)) then
    true
  else if obj.executor = some u.pk then
    if method = "PATCH" ∨ method = "PUT" then
      if dataKeys.all (fun k => decide (k ∈ ["status"])) then true else false
    else
      false
  else
    false

/-! ## TaskRole.clean (apps/tasks/models.py)

```python
def clean(self):
    if self.role == 'assigner':
        existing_assigner = TaskRole.objects.filter(
            task=self.task, role='assigner'
        ).exclude(pk=self.pk).exists()
        if existing_assigner:
            raise ValidationError('У задачи уже есть постановщик')
```
-/

/-- `TaskRole.clean`: validation error (`some msg`) iff the role being
validated is an assigner role and some other row (different pk) is
already an assigner on the same task. -/
def TaskRole.clean (s : State) (r : TaskRole) : Option String :=
  if r.role = RoleKind.assigner then
    if s.roles.any
        (fun r' => decide (r'.task = r.task ∧ r'.role = RoleKind.assigner ∧ r'.pk ≠ r.pk)) then
      some "У задачи уже есть постановщик"
    else
      none
  else
    none

/-- The `add_role` action of `TaskViewSet` (apps/tasks/views.py): the
request is checked by `TaskRoleSerializer.is_valid`, which validates
only the serializer's own fields (an integer `user_id` and a `role`
among the choices, both guaranteed here by the types; the serializer
declares no uniqueness validation, and a DRF model serializer does not
run the model's `clean`), and `serializer.save(task=task)` then writes
the row via `TaskRole.objects.create`, whose `Model.save` does not
call `clean` either (`TaskRole` has no custom `save`); the action
therefore always persists the row and answers 201 — `TaskRole.clean`
is never consulted on this path. -/
def TaskViewSet.add_role (s : State) (taskPk userPk : Nat) (role : RoleKind)
    (newPk : Nat) : State :=
  { s with roles := s.roles ++ [⟨newPk, taskPk, userPk, role⟩] }

/-! ## TaskUpdateSerializer.validate_status (apps/tasks/serializers.py) -/

/-- The child items of a task (`task.items`). -/
def Task.items_of (s : State) (taskPk : Nat) : List TaskItem :=
  s.items.filter (fun i => decide (i.task = taskPk))

/-- `task.items.exclude(status='completed')`. -/
def Task.incomplete_items (s : State) (taskPk : Nat) : List TaskItem :=
  (Task.items_of s taskPk).filter (fun i => decide (i.status ≠ ItemStatus.completed))

/-- The rejection message of `validate_status`, reporting the number of
incomplete items. -/
def incompleteMsg (n : Nat) : String :=
  "Невозможно завершить задачу. Есть незавершенные подзадачи: " ++ toString n

/-- `TaskUpdateSerializer.validate_status` on an update of the task
with pk `taskPk`: a transition to `completed` is rejected when some
child item is not completed, with a message reporting how many. -/
def TaskUpdateSerializer.validate_status (s : State) (taskPk : Nat)
    (value : TaskStatus) : Except String TaskStatus :=
  if value = TaskStatus.completed then
    let incomplete := Task.incomplete_items s taskPk
    if ¬incomplete.isEmpty then
      Except.error (incompleteMsg incomplete.length)
    else
      Except.ok value
  else
    Except.ok value

/-- Overwrite the status of the task row with the given pk. -/
def setTaskStatus (s : State) (taskPk : Nat) (v : TaskStatus) : State :=
  { s with tasks := s.tasks.map (fun t => if t.pk = taskPk then { t with status := v } else t) }

/-- Updating a task's status through `TaskUpdateSerializer`: validation
runs first and nothing is written when it fails; on success the task
row's status is replaced. -/
def updateTaskStatus (s : State) (taskPk : Nat) (value : TaskStatus) :
    Except String State :=
  match TaskUpdateSerializer.validate_status s taskPk value with
  | Except.error e => Except.error e
  | Except.ok v => Except.ok (setTaskStatus s taskPk v)

/-! ## Task visibility (apps/tasks/views.py)

`TaskViewSet.get_queryset` filters
`Q(roles__user=request.user) | Q(items__executor=request.user)` with
`.distinct()`; every list/retrieve request sees only this queryset, so
`get_object` raises 404 for anything outside it before object
permissions are consulted. -/

/-- The filter predicate of `TaskViewSet.get_queryset`. -/
def taskVisible (s : State) (u : User) (t : Task) : Bool :=
  s.roles.any (fun r => decide (r.task = t.pk ∧ r.user = u.pk)) ||
  s.items.any (fun i => decide (i.task = t.pk ∧ i.executor = some u.pk))

/-- `TaskViewSet.get_queryset`: the tasks visible to the requesting
user. -/
def TaskViewSet.get_queryset (s : State) (u : User) : List Task :=
  s.tasks.filter (taskVisible s u)

/-- Outcome of a retrieve request. -/
inductive RetrieveResult where
  | found (t : Task)
  | notFound
  | accessDenied
deriving DecidableEq, Repr

/-- The retrieve action: `get_object` looks the pk up in the filtered
queryset (404 when absent), then the `IsTaskParticipant` object
permission runs (403 when it denies). -/
def TaskViewSet.retrieve (s : State) (u : User) (pk : Nat) : RetrieveResult :=
  match (TaskViewSet.get_queryset s u).find? (fun t => decide (t.pk = pk)) with
  | none => RetrieveResult.notFound
  | some t =>
      if IsTaskParticipant.has_object_permission s u t then
        RetrieveResult.found t
      else
        RetrieveResult.accessDenied

/-! ## TimeLog (apps/timelogs/models.py) -/

/-- `TimeLog.clean`: error iff `task_item` is set and its parent task
differs from the logged task. -/
def TimeLog.clean (l : TimeLog) : Option String :=
  match l.task_item with
  | some item =>
      if item.task ≠ l.task then
        some "Подзадача должна принадлежать указанной задаче"
      else
        none
  | none => none

/-- `full_clean`: the field validators (here `MinValueValidator(0.01)`
on `hours`, i.e. at least one hundredth) followed by `clean`. -/
def TimeLog.full_clean (l : TimeLog) : Option String :=
  if l.hours_centi < 1 then
    some "Убедитесь, что это значение больше либо равно 0.01."
  else
    TimeLog.clean l

/-- `TimeLog.save`: runs `full_clean` before writing; a validation
error aborts the save with nothing written. -/
def TimeLog.save (s : State) (l : TimeLog) : Except String State :=
  match TimeLog.full_clean l with
  | some e => Except.error e
  | none => Except.ok { s with timelogs := s.timelogs ++ [l] }

/-! ## Task.progress_percentage (apps/tasks/models.py)

```python
@property
def progress_percentage(self):
    items = self.items.all()
    if not items:
        return 0
    completed = items.filter(status='completed').count()
    return round((completed / items.count()) * 100, 2)
```

Python's built-in `round` rounds to the nearest representable value,
with exact ties going to the even neighbour (banker's rounding); the
embedding computes it over exact rationals. -/

/-- Round a rational to the nearest integer with ties going to the
even integer (the rounding used by Python's built-in `round`). -/
def roundTiesEven (y : ℚ) : ℤ :=
  let f : ℤ := ⌊y⌋
  let r : ℚ := y - (f : ℚ)
  if r < 1/2 then f
  else if 1/2 < r then f + 1
  else if f % 2 = 0 then f else f + 1

/-- `round(x, 2)` in Python: round to the nearest multiple of 1/100,
ties to even. -/
def pyRound2 (x : ℚ) : ℚ :=
  (roundTiesEven (x * 100) : ℚ) / 100

/-- `items.filter(status='completed')` for a task. -/
def completedItems (s : State) (taskPk : Nat) : List TaskItem :=
  (Task.items_of s taskPk).filter (fun i => decide (i.status = ItemStatus.completed))

/-- `Task.progress_percentage`: 0 when the task has no items, else
`round((completed / items.count()) * 100, 2)`. -/
def Task.progress_percentage (s : State) (taskPk : Nat) : ℚ :=
  let items := Task.items_of s taskPk
  if items.isEmpty then 0
  else pyRound2 (((completedItems s taskPk).length : ℚ) / (items.length : ℚ) * 100)

/-- Stated from the spec's words, for comparison with the code: the
same computation with "standard half-up rounding to 2 decimal places"
(Mathlib's `round` rounds halves up). -/
def progressSpecHalfUp (s : State) (taskPk : Nat) : ℚ :=
  let items := Task.items_of s taskPk
  if items.isEmpty then 0
  else (round (((completedItems s taskPk).length : ℚ) / (items.length : ℚ) * 100 * 100) : ℚ) / 100

/-! ## TaskCreateSerializer.create (apps/tasks/serializers.py)

The serializer's `create` is decorated `@transaction.atomic`: it
creates the Task row, an assigner `TaskRole` for the requesting user,
a `co_executor` role per id in `co_executors`, an `observer` role per
id in `observers`, and a `TaskItem` per item definition with `order`
equal to its position; the first failing step (e.g. a foreign-key
violation for a nonexistent user id) aborts the transaction and rolls
back every prior write. -/

/-- One item definition from the `task_items` request list. -/
structure ItemDef where
  title : String
  description : String
  executor_id : Option Nat
  status : ItemStatus
  planned_hours : ℚ
deriving DecidableEq, Repr

/-- Whether a user row with the given pk exists (the foreign-key check
the database performs on each created row). -/
def userExists (users : List User) (id : Nat) : Bool :=
  users.any (fun u => decide (u.pk = id))

/-- The role-creation loop: one `TaskRole` per user id, in order,
failing at the first id with no user row. -/
def rolesFor (users : List User) (taskPk startPk : Nat) (kind : RoleKind) :
    List Nat → Except String (List TaskRole)
  | [] => Except.ok []
  | id :: rest =>
      if userExists users id then
        match rolesFor users taskPk (startPk + 1) kind rest with
        | Except.ok rs => Except.ok (⟨startPk, taskPk, id, kind⟩ :: rs)
        | Except.error e => Except.error e
      else
        Except.error "нарушение ограничения внешнего ключа"

/-- The item-creation loop: `TaskItem.objects.create(..., order=idx)`
per definition (`objects.create` calls `TaskItem.save`, so the
`completed_at` adjustment applies), failing at the first definition
whose `executor_id` has no user row. -/
def itemsFor (users : List User) (taskPk now : Nat) (idx : Nat) :
    List ItemDef → Except String (List TaskItem)
  | [] => Except.ok []
  | d :: rest =>
      let execOk := match d.executor_id with
        | none => true
        | some e => userExists users e
      if execOk then
        match itemsFor users taskPk now (idx + 1) rest with
        | Except.ok is =>
            Except.ok (TaskItem.save_fields
              ⟨idx, taskPk, d.title, d.description, d.executor_id, d.status,
               d.planned_hours, idx, none⟩ now :: is)
        | Except.error e => Except.error e
      else
        Except.error "нарушение ограничения внешнего ключа"

/-- The body of `TaskCreateSerializer.create`: the sequence of writes
inside the transaction, stopping at the first failure. -/
def TaskCreateSerializer.createBody (s : State) (requester : Nat)
    (title description : String) (co_executors observers : List Nat)
    (task_items : List ItemDef) (now : Nat) : Except String State :=
  let taskPk := s.tasks.length + 1
  let task : Task := ⟨taskPk, title, description, TaskStatus.new⟩
  let base := s.roles.length
  let assignerRole : TaskRole := ⟨base, taskPk, requester, RoleKind.assigner⟩
  match rolesFor s.users taskPk (base + 1) RoleKind.co_executor co_executors with
  | Except.error e => Except.error e
  | Except.ok coRoles =>
      match rolesFor s.users taskPk (base + 1 + co_executors.length)
          RoleKind.observer observers with
      | Except.error e => Except.error e
      | Except.ok obsRoles =>
          match itemsFor s.users taskPk now 0 task_items with
          | Except.error e => Except.error e
          | Except.ok newItems =>
              Except.ok { s with
                tasks := s.tasks ++ [task],
                roles := s.roles ++ assignerRole :: (coRoles ++ obsRoles),
                items := s.items ++ newItems }

/-- `TaskCreateSerializer.create` under `@transaction.atomic`: when any
step of the body fails the transaction rolls back, leaving the state
unchanged and reporting the error. -/
def TaskCreateSerializer.create (s : State) (requester : Nat)
    (title description : String) (co_executors observers : List Nat)
    (task_items : List ItemDef) (now : Nat) : State × Option String :=
  match TaskCreateSerializer.createBody s requester title description
      co_executors observers task_items now with
  | Except.ok s' => (s', none)
  | Except.error e => (s, some e)

/-- The nearest-multiple-of-1/100 characterization of rounding to two
decimal places with ties to even: `p` is a multiple of 1/100, no
multiple of 1/100 is closer to `x`, and if a different multiple is
equally close then `p` is an even multiple. -/
def IsNearestHundredthTiesEven (x p : ℚ) : Prop :=
  (∃ k : ℤ, p = (k : ℚ) / 100)
  ∧ (∀ k : ℤ, |p - x| ≤ |(k : ℚ) / 100 - x|)
  ∧ (∀ k : ℤ, |(k : ℚ) / 100 - x| = |p - x| → (k : ℚ) / 100 ≠ p →
      ∃ m : ℤ, p = ((2 * m : ℤ) : ℚ) / 100)

/-- Task 1 with items in statuses [completed, completed, todo]. -/
def sProg3 : State :=
  ⟨[], [⟨1, "T", "D", TaskStatus.new⟩], [],
   [⟨1, 1, "a", "", none, ItemStatus.completed, 0, 0, some 5⟩,
    ⟨2, 1, "b", "", none, ItemStatus.completed, 0, 1, some 5⟩,
    ⟨3, 1, "c", "", none, ItemStatus.todo, 0, 2, none⟩], []⟩

/-- Task 1 with 1 completed item and 31 todo items (32 in total). -/
def sProg32 : State :=
  ⟨[], [⟨1, "T", "D", TaskStatus.new⟩], [],
   ⟨1, 1, "a", "", none, ItemStatus.completed, 0, 0, some 5⟩ ::
     List.replicate 31 ⟨2, 1, "b", "", none, ItemStatus.todo, 0, 1, none⟩, []⟩

/-- Task 1 with no items. -/
def sProgEmpty : State := ⟨[], [⟨1, "T", "D", TaskStatus.new⟩], [], [], []⟩

/-! ## Witness fixtures: concrete states and rows used by the
witness and counterexample theorems. -/

/-- A user who is executor of the sample item but holds no role on its
task; the task's assigner is a different user (pk 9). -/
def uExec : User := ⟨5, false⟩

/-- Sample item whose executor is `uExec`. -/
def itemW : TaskItem := ⟨1, 1, "item", "", some 5, ItemStatus.in_progress, 0, 0, none⟩

/-- Sample state for the permission witnesses. -/
def sPerm : State :=
  ⟨[⟨5, false⟩, ⟨9, false⟩], [⟨1, "T", "D", TaskStatus.new⟩],
   [⟨1, 1, 9, RoleKind.assigner⟩], [itemW], []⟩

/-- Fresh completed item without a timestamp. -/
def itemFresh : TaskItem := ⟨3, 1, "f", "", none, ItemStatus.completed, 0, 0, none⟩

/-- Stale item moved away from completed but still carrying a
timestamp. -/
def itemStale : TaskItem := ⟨4, 1, "s", "", none, ItemStatus.todo, 0, 0, some 2⟩

/-- Completed item with timestamp 3. -/
def itemDone : TaskItem := ⟨2, 1, "d", "", none, ItemStatus.completed, 0, 0, some 3⟩

/-- State with a single assigner role (pk 1, user 7) on task 10. -/
def sAssigner : State :=
  ⟨[⟨7, false⟩, ⟨8, false⟩], [⟨10, "T", "D", TaskStatus.new⟩],
   [⟨1, 10, 7, RoleKind.assigner⟩], [], []⟩

/-- State whose task 1 has one completed and one todo item. -/
def sGate : State :=
  ⟨[], [⟨1, "T", "D", TaskStatus.in_progress⟩], [],
   [⟨1, 1, "a", "", none, ItemStatus.completed, 0, 0, some 5⟩,
    ⟨2, 1, "b", "", none, ItemStatus.todo, 0, 1, none⟩], []⟩

/-- State whose task 1 has only completed items. -/
def sGateDone : State :=
  ⟨[], [⟨1, "T", "D", TaskStatus.in_progress⟩], [],
   [⟨1, 1, "a", "", none, ItemStatus.completed, 0, 0, some 5⟩], []⟩

/-- State with a task (pk 1) whose only participants are user 7 (role)
and user 6 (item executor); user 5 is a non-participant. -/
def sVis : State :=
  ⟨[⟨5, false⟩, ⟨6, false⟩, ⟨7, false⟩], [⟨1, "T", "D", TaskStatus.new⟩],
   [⟨1, 1, 7, RoleKind.assigner⟩],
   [⟨1, 1, "i", "", some 6, ItemStatus.todo, 0, 0, none⟩], []⟩

/-- An item of task 1, used by the TimeLog witnesses. -/
def itemT1 : TaskItem := ⟨1, 1, "i", "", none, ItemStatus.todo, 0, 0, none⟩

/-- TimeLog of 1.50 hours on task 2 pointing at an item of task 1. -/
def logBad : TimeLog := ⟨1, 7, 2, some itemT1, 20250101, 150, "w"⟩

/-- TimeLog of 1.50 hours on task 1 pointing at its own item. -/
def logGood : TimeLog := ⟨2, 7, 1, some itemT1, 20250101, 150, "w"⟩

/-- Four users; empty database. -/
def sC6 : State := ⟨[⟨1, false⟩, ⟨2, false⟩, ⟨3, false⟩, ⟨4, false⟩], [], [], [], []⟩

/-- The two item definitions of the creation example. -/
def defsC6 : List ItemDef :=
  [⟨"Item 1", "Desc 1", some 2, ItemStatus.todo, 8⟩,
   ⟨"Item 2", "", some 3, ItemStatus.todo, 16⟩]

/-- The state produced by the example creation request: requester 1,
co-executors [2, 3], observers [4], two item definitions. -/
def createdC6 : State :=
  (TaskCreateSerializer.create sC6 1 "Complex Task" "Complex Description"
    [2, 3] [4] defsC6 0).1

/-! ## Theorems -/

/-- Helper: under the executor branch (non-staff, not the task's
assigner, executor of the item, PATCH/PUT request), the item-mutation
permission evaluates to exactly the field-subset test. -/
lemma executor_permission_eval (s : State) (u : User) (method : String)
    (dataKeys : List String) (obj : TaskItem)
    (hstaff : u.is_staff = false)
    (hassigner : ∀ r ∈ s.roles,
      ¬(r.task = obj.task ∧ r.user = u.pk ∧ r.role = RoleKind.assigner))
    (hexec : obj.executor = some u.pk)
    (hmethod : method = "PATCH" ∨ method = "PUT") :
    IsTaskItemExecutorOrAssigner.has_object_permission s u method dataKeys obj
      = dataKeys.all (fun k => decide (k ∈ ["status"])) := by
  have hroles : s.roles.any
      (fun r => decide (r.task = obj.task ∧ r.user = u.pk ∧ r.role = RoleKind.assigner))
      = false := by
    simp only [List.any_eq_false, decide_eq_true_eq]
    exact hassigner
  unfold IsTaskItemExecutorOrAssigner.has_object_permission
  rw [hstaff, hroles, hexec]
  simp only [Bool.false_eq_true, if_false, if_pos rfl, if_pos hmethod]
  cases hall : dataKeys.all (fun k => decide (k ∈ ["status"])) <;> simp [hall]

/-- C2: for a PATCH/PUT on a TaskItem by its executor who is neither
staff nor the task's assigner, the item-mutation check permits the
write if and only if every field in the request body is `status`
(i.e. the field set is a subset of `{status}`). -/
theorem executor_write_iff_status_subset (s : State) (u : User) (method : String)
    (dataKeys : List String) (obj : TaskItem)
    (hstaff : u.is_staff = false)
    (hassigner : ∀ r ∈ s.roles,
      ¬(r.task = obj.task ∧ r.user = u.pk ∧ r.role = RoleKind.assigner))
    (hexec : obj.executor = some u.pk)
    (hmethod : method = "PATCH" ∨ method = "PUT") :
    (IsTaskItemExecutorOrAssigner.has_object_permission s u method dataKeys obj = true
      ↔ ∀ k ∈ dataKeys, k = "status") := by
  rw [executor_permission_eval s u method dataKeys obj hstaff hassigner hexec hmethod]
  simp [List.all_eq_true]

/-- C2 witness: on the sample state, a PATCH with only `status` is
permitted and a PATCH with `title` alongside `status` is denied. -/
theorem executor_write_iff_status_subset_witness :
    IsTaskItemExecutorOrAssigner.has_object_permission sPerm uExec "PATCH" ["status"] itemW = true
    ∧ ¬IsTaskItemExecutorOrAssigner.has_object_permission sPerm uExec "PATCH"
        ["status", "title"] itemW = true := by
  have h1 := executor_write_iff_status_subset sPerm uExec "PATCH" ["status"] itemW
    rfl (by decide) rfl (Or.inl rfl)
  have h2 := executor_write_iff_status_subset sPerm uExec "PATCH" ["status", "title"] itemW
    rfl (by decide) rfl (Or.inl rfl)
  refine ⟨h1.mpr (by simp), fun hc => ?_⟩
  have := h2.mp hc "title" (by simp)
  simp at this

/-- C9: a PATCH/PUT by the item's executor (non-staff, non-assigner)
whose request body contains no fields at all is permitted: the empty
field set is a subset of `{status}`. -/
theorem executor_write_empty_fields_permitted (s : State) (u : User) (method : String)
    (obj : TaskItem)
    (hstaff : u.is_staff = false)
    (hassigner : ∀ r ∈ s.roles,
      ¬(r.task = obj.task ∧ r.user = u.pk ∧ r.role = RoleKind.assigner))
    (hexec : obj.executor = some u.pk)
    (hmethod : method = "PATCH" ∨ method = "PUT") :
    IsTaskItemExecutorOrAssigner.has_object_permission s u method [] obj = true := by
  rw [executor_permission_eval s u method [] obj hstaff hassigner hexec hmethod]
  rfl

/-- C9 witness: the empty-body PATCH is permitted on the sample state. -/
theorem executor_write_empty_fields_permitted_witness :
    IsTaskItemExecutorOrAssigner.has_object_permission sPerm uExec "PATCH" [] itemW = true :=
  executor_write_empty_fields_permitted sPerm uExec "PATCH" itemW
    rfl (by decide) rfl (Or.inl rfl)

/-- C4: after `TaskItem.save` the written row satisfies
`completed_at ≠ NULL ↔ status = completed`; a save of a completed item
without a timestamp stamps `now` in the same write, a save of a
non-completed item with a timestamp clears it in the same write, and
every row of the resulting state is either an old row or the adjusted
one. -/
theorem taskitem_save_completed_at_invariant (s : State) (i : TaskItem) (now : Nat) :
    ((TaskItem.save_fields i now).completed_at ≠ none
      ↔ (TaskItem.save_fields i now).status = ItemStatus.completed)
    ∧ (i.status = ItemStatus.completed → i.completed_at = none →
        (TaskItem.save_fields i now).completed_at = some now)
    ∧ (i.status ≠ ItemStatus.completed → i.completed_at ≠ none →
        (TaskItem.save_fields i now).completed_at = none)
    ∧ (∀ j ∈ (TaskItem.save s i now).items, j ∈ s.items ∨ j = TaskItem.save_fields i now) := by
  refine ⟨?_, ?_, ?_, ?_⟩
  · by_cases hs : i.status = ItemStatus.completed <;>
      by_cases hc : i.completed_at = none <;>
      simp [TaskItem.save_fields, hs, hc]
  · intro hs hc
    simp [TaskItem.save_fields, hs, hc]
  · intro hs hc
    simp [TaskItem.save_fields, hs, hc]
  · intro j hj
    unfold TaskItem.save at hj
    by_cases hmem : s.items.any (fun j => decide (j.pk = i.pk))
    · rw [if_pos hmem] at hj
      simp only [List.mem_map] at hj
      obtain ⟨a, ha, hval⟩ := hj
      by_cases hpk : a.pk = i.pk
      · right
        rw [if_pos hpk] at hval
        exact hval.symm
      · left
        rw [if_neg hpk] at hval
        exact hval ▸ ha
    · rw [if_neg hmem] at hj
      rcases List.mem_append.mp hj with h | h
      · exact Or.inl h
      · exact Or.inr (List.mem_singleton.mp h)

/-- C4 witness: saving `itemFresh` at time 9 stamps 9; saving
`itemStale` clears the timestamp. -/
theorem taskitem_save_completed_at_invariant_witness :
    (TaskItem.save_fields itemFresh 9).completed_at = some 9
    ∧ (TaskItem.save_fields itemStale 9).completed_at = none :=
  ⟨(taskitem_save_completed_at_invariant sPerm itemFresh 9).2.1 rfl rfl,
   (taskitem_save_completed_at_invariant sPerm itemStale 9).2.2.1 (by decide) (by decide)⟩

/-- C10: saving an already-completed item that carries a completion
timestamp preserves that timestamp (repeated saves are idempotent on
`completed_at`). -/
theorem taskitem_save_preserves_completed_at (i : TaskItem) (now t : Nat)
    (hs : i.status = ItemStatus.completed) (hc : i.completed_at = some t) :
    (TaskItem.save_fields i now).completed_at = some t := by
  simp [TaskItem.save_fields, hs, hc]

/-- C10 witness: re-saving `itemDone` at time 9 keeps `completed_at = 3`. -/
theorem taskitem_save_preserves_completed_at_witness :
    (TaskItem.save_fields itemDone 9).completed_at = some 3 :=
  taskitem_save_preserves_completed_at itemDone 9 3 rfl rfl

/-- C1 (code bug): on the state whose task 10 already has an assigner
role (pk 1, user 7), `TaskRole.clean` flags a prospective second
assigner row (user 8, fresh pk 2) with the validation error and — per
its pk exclusion — passes the existing row itself when re-validated on
update; yet the `add_role` action, which never runs `clean`, persists
the second assigner row anyway, leaving two `assigner` roles on task
10. -/
theorem taskrole_second_assigner_persisted :
    TaskRole.clean sAssigner ⟨2, 10, 8, RoleKind.assigner⟩
      = some "У задачи уже есть постановщик"
    ∧ TaskRole.clean sAssigner ⟨1, 10, 8, RoleKind.assigner⟩ = none
    ∧ (TaskViewSet.add_role sAssigner 10 8 RoleKind.assigner 2).roles
      = [⟨1, 10, 7, RoleKind.assigner⟩, ⟨2, 10, 8, RoleKind.assigner⟩]
    ∧ ((TaskViewSet.add_role sAssigner 10 8 RoleKind.assigner 2).roles.filter
        (fun r => decide (r.task = 10 ∧ r.role = RoleKind.assigner))).length = 2 :=
  ⟨rfl, rfl, rfl, rfl⟩

/-- C3: a status update of a task to `completed` is rejected with a
validation error reporting the exact number of incomplete child items
whenever some child item is not completed (nothing is written, the
task keeping its previous state); when every child item is completed
(in particular when there are none) the update is accepted and sets
the status. -/
theorem task_completion_gated_on_items (s : State) (taskPk : Nat) :
    (0 < (Task.incomplete_items s taskPk).length →
      updateTaskStatus s taskPk TaskStatus.completed
        = Except.error (incompleteMsg (Task.incomplete_items s taskPk).length))
    ∧ ((Task.incomplete_items s taskPk).length = 0 →
      updateTaskStatus s taskPk TaskStatus.completed
        = Except.ok (setTaskStatus s taskPk TaskStatus.completed)) := by
  constructor
  · intro hpos
    have hne : (Task.incomplete_items s taskPk).isEmpty = false := by
      cases hE : (Task.incomplete_items s taskPk) with
      | nil => rw [hE] at hpos; simp at hpos
      | cons a l => simp [hE]
    unfold updateTaskStatus TaskUpdateSerializer.validate_status
    simp only [if_pos rfl, hne]
    rfl
  · intro hzero
    have hE : (Task.incomplete_items s taskPk).isEmpty = true := by
      rw [List.isEmpty_iff_length_eq_zero]
      exact hzero
    unfold updateTaskStatus TaskUpdateSerializer.validate_status
    simp only [if_pos rfl, hE]
    rfl

/-- C3 witness: with one incomplete item the update to completed is
rejected with the message reporting 1; with every item completed it is
accepted. -/
theorem task_completion_gated_on_items_witness :
    updateTaskStatus sGate 1 TaskStatus.completed = Except.error (incompleteMsg 1)
    ∧ updateTaskStatus sGateDone 1 TaskStatus.completed
        = Except.ok (setTaskStatus sGateDone 1 TaskStatus.completed) := by
  have h1 := (task_completion_gated_on_items sGate 1).1
  have h2 := (task_completion_gated_on_items sGateDone 1).2
  have hlen : (Task.incomplete_items sGate 1).length = 1 := by
    simp [Task.incomplete_items, Task.items_of, sGate]
  constructor
  · have := h1 (by rw [hlen]; norm_num)
    rwa [hlen] at this
  · exact h2 (by simp [Task.incomplete_items, Task.items_of, sGateDone])

/-- C7: for a non-staff user who holds no role on a task and is
executor of none of its items, the list queryset contains no task with
that pk and retrieve answers NotFound (never AccessDenied); and in
general a task is in the queryset exactly when the user holds some
role on it or is executor of some of its items. -/
theorem task_visibility (s : State) (u : User) (p : Nat)
    (_hstaff : u.is_staff = false) :
    ((∀ r ∈ s.roles, ¬(r.task = p ∧ r.user = u.pk)) →
      (∀ i ∈ s.items, ¬(i.task = p ∧ i.executor = some u.pk)) →
      TaskViewSet.retrieve s u p = RetrieveResult.notFound
      ∧ ∀ t ∈ TaskViewSet.get_queryset s u, t.pk ≠ p)
    ∧ (∀ t, t ∈ TaskViewSet.get_queryset s u ↔
        t ∈ s.tasks ∧
        ((∃ r ∈ s.roles, r.task = t.pk ∧ r.user = u.pk) ∨
         (∃ i ∈ s.items, i.task = t.pk ∧ i.executor = some u.pk))) := by
  have hmem : ∀ t, t ∈ TaskViewSet.get_queryset s u ↔
      t ∈ s.tasks ∧
      ((∃ r ∈ s.roles, r.task = t.pk ∧ r.user = u.pk) ∨
       (∃ i ∈ s.items, i.task = t.pk ∧ i.executor = some u.pk)) := by
    intro t
    unfold TaskViewSet.get_queryset taskVisible
    simp [List.mem_filter, List.any_eq_true]
  refine ⟨?_, hmem⟩
  intro hrole hitem
  have hnot : ∀ t ∈ TaskViewSet.get_queryset s u, t.pk ≠ p := by
    intro t ht hpk
    rcases ((hmem t).mp ht).2 with ⟨r, hr, h1, h2⟩ | ⟨i, hi, h1, h2⟩
    · exact hrole r hr ⟨hpk ▸ h1, h2⟩
    · exact hitem i hi ⟨hpk ▸ h1, h2⟩
  refine ⟨?_, hnot⟩
  unfold TaskViewSet.retrieve
  have hfind : (TaskViewSet.get_queryset s u).find? (fun t => decide (t.pk = p)) = none := by
    rw [List.find?_eq_none]
    intro t ht
    simp only [decide_eq_true_eq]
    exact hnot t ht
  rw [hfind]

/-- C7 witness: the non-participant user 5 gets NotFound for task 1
and sees nothing in the list queryset, while participant user 7 sees
task 1 listed. -/
theorem task_visibility_witness :
    TaskViewSet.retrieve sVis ⟨5, false⟩ 1 = RetrieveResult.notFound
    ∧ (⟨1, "T", "D", TaskStatus.new⟩ : Task) ∈ TaskViewSet.get_queryset sVis ⟨7, false⟩ := by
  constructor
  · exact (((task_visibility sVis ⟨5, false⟩ 1 rfl).1 (by decide) (by decide))).1
  · refine ((task_visibility sVis ⟨7, false⟩ 1 rfl).2 _).mpr ?_
    exact ⟨by simp [sVis], Or.inl ⟨⟨1, 1, 7, RoleKind.assigner⟩, by simp [sVis], rfl, rfl⟩⟩

/-- C8: a TimeLog save whose `task_item` is set to an item of a
different task fails with a validation error before anything is
written; a TimeLog with positive hours whose `task_item` is absent or
belongs to the logged task is accepted and appended. -/
theorem timelog_item_task_consistency (s : State) (l : TimeLog) :
    ((∃ it, l.task_item = some it ∧ it.task ≠ l.task) →
      ∃ e, TimeLog.save s l = Except.error e)
    ∧ (0 < l.hours_centi →
      (l.task_item = none ∨ ∃ it, l.task_item = some it ∧ it.task = l.task) →
      TimeLog.save s l = Except.ok { s with timelogs := s.timelogs ++ [l] }) := by
  constructor
  · rintro ⟨it, hit, hne⟩
    by_cases hh : l.hours_centi < 1
    · refine ⟨"Убедитесь, что это значение больше либо равно 0.01.", ?_⟩
      simp [TimeLog.save, TimeLog.full_clean, hh]
    · refine ⟨"Подзадача должна принадлежать указанной задаче", ?_⟩
      simp [TimeLog.save, TimeLog.full_clean, TimeLog.clean, hit, hne, hh]
  · intro hpos hok
    have hh : ¬l.hours_centi < 1 := by omega
    rcases hok with hnone | ⟨it, hit, heq⟩
    · simp [TimeLog.save, TimeLog.full_clean, TimeLog.clean, hnone, hh]
    · simp [TimeLog.save, TimeLog.full_clean, TimeLog.clean, hit, heq, hh]

/-- C8 witness: saving `logBad` on the sample state fails, saving
`logGood` appends it. -/
theorem timelog_item_task_consistency_witness :
    (TimeLog.save sVis logBad = Except.error "Подзадача должна принадлежать указанной задаче")
    ∧ TimeLog.save sVis logGood
        = Except.ok { sVis with timelogs := sVis.timelogs ++ [logGood] } := by
  refine ⟨by rfl,
    (timelog_item_task_consistency sVis logGood).2 (by decide) (Or.inr ⟨itemT1, rfl, rfl⟩)⟩

/-- Helper: `roundTiesEven y` is a nearest integer to `y`. -/
lemma roundTiesEven_nearest (y : ℚ) (k : ℤ) :
    |(roundTiesEven y : ℚ) - y| ≤ |(k : ℚ) - y| := by
  have hf1 : ((⌊y⌋ : ℤ) : ℚ) ≤ y := Int.floor_le y
  have hf2 : y < ((⌊y⌋ : ℤ) : ℚ) + 1 := Int.lt_floor_add_one y
  have hmin : min (y - ((⌊y⌋ : ℤ) : ℚ)) (((⌊y⌋ : ℤ) : ℚ) + 1 - y) ≤ |(k : ℚ) - y| := by
    rcases le_or_lt k ⌊y⌋ with hk | hk
    · have hkq : (k : ℚ) ≤ ((⌊y⌋ : ℤ) : ℚ) := by exact_mod_cast hk
      have habs : |(k : ℚ) - y| = y - k := by
        rw [abs_sub_comm]
        exact abs_of_nonneg (by linarith)
      rw [habs]
      exact le_trans (min_le_left _ _) (by linarith)
    · have hk1 : ⌊y⌋ + 1 ≤ k := hk
      have hkq : ((⌊y⌋ : ℤ) : ℚ) + 1 ≤ (k : ℚ) := by exact_mod_cast hk1
      have habs : |(k : ℚ) - y| = (k : ℚ) - y := abs_of_nonneg (by linarith)
      rw [habs]
      exact le_trans (min_le_right _ _) (by linarith)
  refine le_trans ?_ hmin
  simp only [roundTiesEven]
  split_ifs with h1 h2 h3
  · rw [abs_sub_comm, abs_of_nonneg (by linarith)]
    exact le_min (by linarith) (by linarith)
  · push_cast
    rw [abs_of_nonneg (by linarith)]
    exact le_min (by linarith) (by linarith)
  · rw [abs_sub_comm, abs_of_nonneg (by linarith)]
    exact le_min (by linarith) (by linarith)
  · push_cast
    rw [abs_of_nonneg (by linarith)]
    exact le_min (by linarith) (by linarith)

/-- Helper: when a different integer is exactly as close to `y` as
`roundTiesEven y`, the chosen integer is even. -/
lemma roundTiesEven_tie_even (y : ℚ) (k : ℤ)
    (htie : |(k : ℚ) - y| = |(roundTiesEven y : ℚ) - y|)
    (hne : k ≠ roundTiesEven y) :
    roundTiesEven y % 2 = 0 := by
  have hf1 : ((⌊y⌋ : ℤ) : ℚ) ≤ y := Int.floor_le y
  have hf2 : y < ((⌊y⌋ : ℤ) : ℚ) + 1 := Int.lt_floor_add_one y
  rcases lt_trichotomy (y - ((⌊y⌋ : ℤ) : ℚ)) (1/2) with h1 | h1 | h1
  · exfalso
    have hp : roundTiesEven y = ⌊y⌋ := by
      simp only [roundTiesEven]
      rw [if_pos h1]
    rw [hp] at htie hne
    have habs : |((⌊y⌋ : ℤ) : ℚ) - y| = y - ((⌊y⌋ : ℤ) : ℚ) := by
      rw [abs_sub_comm]
      exact abs_of_nonneg (by linarith)
    rw [habs] at htie
    rcases le_or_lt k ⌊y⌋ with hk | hk
    · have hklt : k + 1 ≤ ⌊y⌋ := by omega
      have hkq : (k : ℚ) + 1 ≤ ((⌊y⌋ : ℤ) : ℚ) := by exact_mod_cast hklt
      have : |(k : ℚ) - y| = y - k := by
        rw [abs_sub_comm]
        exact abs_of_nonneg (by linarith)
      rw [this] at htie
      linarith
    · have hkq : ((⌊y⌋ : ℤ) : ℚ) + 1 ≤ (k : ℚ) := by exact_mod_cast hk
      have : |(k : ℚ) - y| = (k : ℚ) - y := abs_of_nonneg (by linarith)
      rw [this] at htie
      linarith
  · have hnot1 : ¬(y - ((⌊y⌋ : ℤ) : ℚ) < 1/2) := by linarith
    have hnot2 : ¬((1:ℚ)/2 < y - ((⌊y⌋ : ℤ) : ℚ)) := by linarith
    simp only [roundTiesEven]
    rw [if_neg hnot1, if_neg hnot2]
    split_ifs with hpar
    · exact hpar
    · omega
  · exfalso
    have hp : roundTiesEven y = ⌊y⌋ + 1 := by
      simp only [roundTiesEven]
      rw [if_neg (by linarith), if_pos h1]
    rw [hp] at htie hne
    have habs : |((⌊y⌋ + 1 : ℤ) : ℚ) - y| = ((⌊y⌋ : ℤ) : ℚ) + 1 - y := by
      push_cast
      exact abs_of_nonneg (by linarith)
    rw [habs] at htie
    rcases le_or_lt k ⌊y⌋ with hk | hk
    · have hkq : (k : ℚ) ≤ ((⌊y⌋ : ℤ) : ℚ) := by exact_mod_cast hk
      have : |(k : ℚ) - y| = y - k := by
        rw [abs_sub_comm]
        exact abs_of_nonneg (by linarith)
      rw [this] at htie
      linarith
    · have hk2 : ⌊y⌋ + 2 ≤ k := by omega
      have hkq : ((⌊y⌋ : ℤ) : ℚ) + 2 ≤ (k : ℚ) := by exact_mod_cast hk2
      have : |(k : ℚ) - y| = (k : ℚ) - y := abs_of_nonneg (by linarith)
      rw [this] at htie
      linarith

/-- Helper: `pyRound2 x` is the nearest multiple of 1/100 to `x`, with
ties going to the even multiple. -/
lemma pyRound2_nearestTiesEven (x : ℚ) :
    IsNearestHundredthTiesEven x (pyRound2 x) := by
  have habs : ∀ a : ℚ, |a / 100 - x| = |a - x * 100| / 100 := by
    intro a
    have e : a / 100 - x = (a - x * 100) / 100 := by ring
    rw [e, abs_div, abs_of_pos (by norm_num : (0:ℚ) < 100)]
  refine ⟨⟨roundTiesEven (x * 100), rfl⟩, ?_, ?_⟩
  · intro k
    rw [pyRound2, habs, habs]
    exact (div_le_div_iff_of_pos_right (by norm_num)).mpr (roundTiesEven_nearest (x * 100) k)
  · intro k htie hne
    have hne' : k ≠ roundTiesEven (x * 100) := by
      intro hkeq
      exact hne (by rw [hkeq, pyRound2])
    have htie' : |(k : ℚ) - x * 100| = |(roundTiesEven (x * 100) : ℚ) - x * 100| := by
      rw [pyRound2, habs, habs] at htie
      linarith
    have hpar := roundTiesEven_tie_even (x * 100) k htie' hne'
    refine ⟨roundTiesEven (x * 100) / 2, ?_⟩
    have hm : roundTiesEven (x * 100) = 2 * (roundTiesEven (x * 100) / 2) := by omega
    rw [pyRound2]
    rw [← hm]

/-- C5 (amended): `progress_percentage` returns 0 when the task has no
items, and otherwise returns `100 * completed / total` rounded to the
nearest multiple of 1/100 with ties to even (Python's banker's
rounding, not half-up); in particular for items
[completed, completed, todo] it returns 66.67. -/
theorem progress_percentage_rounding (s : State) (taskPk : Nat) :
    (Task.items_of s taskPk = [] → Task.progress_percentage s taskPk = 0)
    ∧ (Task.items_of s taskPk ≠ [] →
        IsNearestHundredthTiesEven
          (((completedItems s taskPk).length : ℚ) / ((Task.items_of s taskPk).length : ℚ) * 100)
          (Task.progress_percentage s taskPk))
    ∧ Task.progress_percentage sProg3 1 = 6667/100 := by
  refine ⟨?_, ?_, ?_⟩
  · intro hnil
    simp [Task.progress_percentage, hnil]
  · intro hnonnil
    have hne : (Task.items_of s taskPk).isEmpty = false := by
      cases hE : Task.items_of s taskPk with
      | nil => exact absurd hE hnonnil
      | cons a l => simp
    have hval : Task.progress_percentage s taskPk
        = pyRound2 (((completedItems s taskPk).length : ℚ)
            / ((Task.items_of s taskPk).length : ℚ) * 100) := by
      simp only [Task.progress_percentage, hne, Bool.false_eq_true, if_false]
    rw [hval]
    exact pyRound2_nearestTiesEven _
  · have hne : (Task.items_of sProg3 1).isEmpty = false := by decide
    have hcomp : ((completedItems sProg3 1).length : ℚ) = 2 := by
      have h : (completedItems sProg3 1).length = 2 := by decide
      exact_mod_cast h
    have hlen : ((Task.items_of sProg3 1).length : ℚ) = 3 := by
      have h : (Task.items_of sProg3 1).length = 3 := by decide
      exact_mod_cast h
    have hval : Task.progress_percentage sProg3 1
        = pyRound2 ((2 : ℚ) / (3 : ℚ) * 100) := by
      simp only [Task.progress_percentage, hne, Bool.false_eq_true, if_false, hcomp, hlen]
    rw [hval]
    norm_num [pyRound2, roundTiesEven]

/-- C5 witness: a task with no items has progress 0, and the progress
of the [completed, completed, todo] task is the even-ties nearest
hundredth of 200/3. -/
theorem progress_percentage_rounding_witness :
    Task.progress_percentage sProgEmpty 1 = 0
    ∧ IsNearestHundredthTiesEven ((2 : ℚ) / (3 : ℚ) * 100)
        (Task.progress_percentage sProg3 1) := by
  refine ⟨(progress_percentage_rounding sProgEmpty 1).1 (by decide), ?_⟩
  have h := (progress_percentage_rounding sProg3 1).2.1 (by decide)
  have hcomp : ((completedItems sProg3 1).length : ℚ) = 2 := by
    have hc : (completedItems sProg3 1).length = 2 := by decide
    exact_mod_cast hc
  have hlen : ((Task.items_of sProg3 1).length : ℚ) = 3 := by
    have hl : (Task.items_of sProg3 1).length = 3 := by decide
    exact_mod_cast hl
  rwa [hcomp, hlen] at h

/-- C5 counterexample: for 1 completed item out of 32,
`progress_percentage` returns 3.12 (Python's banker's rounding of
3.125), while half-up rounding as claimed would give 3.13, so the
code does not round half-up. -/
theorem progress_percentage_not_half_up :
    Task.progress_percentage sProg32 1 = 78/25
    ∧ progressSpecHalfUp sProg32 1 = 313/100
    ∧ ¬Task.progress_percentage sProg32 1 = progressSpecHalfUp sProg32 1 := by
  have hne : (Task.items_of sProg32 1).isEmpty = false := by decide
  have hcomp : ((completedItems sProg32 1).length : ℚ) = 1 := by
    have h : (completedItems sProg32 1).length = 1 := by decide
    exact_mod_cast h
  have hlen : ((Task.items_of sProg32 1).length : ℚ) = 32 := by
    have h : (Task.items_of sProg32 1).length = 32 := by decide
    exact_mod_cast h
  have h1 : Task.progress_percentage sProg32 1 = 78/25 := by
    have hval : Task.progress_percentage sProg32 1
        = pyRound2 ((1 : ℚ) / (32 : ℚ) * 100) := by
      simp only [Task.progress_percentage, hne, Bool.false_eq_true, if_false, hcomp, hlen]
    rw [hval]
    norm_num [pyRound2, roundTiesEven]
  have h2 : progressSpecHalfUp sProg32 1 = 313/100 := by
    have hval : progressSpecHalfUp sProg32 1
        = (round ((1 : ℚ) / (32 : ℚ) * 100 * 100) : ℚ) / 100 := by
      simp only [progressSpecHalfUp, hne, Bool.false_eq_true, if_false, hcomp, hlen]
    rw [hval]
    norm_num [round_eq]
  refine ⟨h1, h2, ?_⟩
  rw [h1, h2]
  norm_num

/-- Helper: a successful `rolesFor` run yields one role per requested
user id, in order, all on the given task with the given kind. -/
lemma rolesFor_ok_spec (users : List User) (taskPk : Nat) (kind : RoleKind) :
    ∀ (ids : List Nat) (startPk : Nat) (rs : List TaskRole),
      rolesFor users taskPk startPk kind ids = Except.ok rs →
      rs.length = ids.length
      ∧ rs.map (fun r => r.user) = ids
      ∧ ∀ r ∈ rs, r.task = taskPk ∧ r.role = kind := by
  intro ids
  induction ids with
  | nil =>
      intro startPk rs h
      simp only [rolesFor] at h
      obtain rfl := (Except.ok.inj h).symm
      simp
  | cons id rest ih =>
      intro startPk rs h
      simp only [rolesFor] at h
      by_cases hu : userExists users id
      · rw [if_pos hu] at h
        cases hrec : rolesFor users taskPk (startPk + 1) kind rest with
        | error e =>
            rw [hrec] at h
            exact absurd h (by simp)
        | ok rs' =>
            rw [hrec] at h
            obtain rfl := (Except.ok.inj h).symm
            obtain ⟨hlen, hmap, hall⟩ := ih (startPk + 1) rs' hrec
            refine ⟨by simp [hlen], by simp [hmap], ?_⟩
            intro r hr
            rcases List.mem_cons.mp hr with hhead | htail
            · subst hhead
              exact ⟨rfl, rfl⟩
            · exact hall r htail
      · rw [if_neg hu] at h
        exact absurd h (by simp)

/-- Helper: `TaskItem.save_fields` never touches the `order` field. -/
lemma save_fields_order (i : TaskItem) (now : Nat) :
    (TaskItem.save_fields i now).order = i.order := by
  unfold TaskItem.save_fields
  split_ifs <;> rfl

/-- Helper: a successful `itemsFor` run yields one item per
definition, with `order` fields enumerating the positions starting at
`idx`. -/
lemma itemsFor_ok_spec (users : List User) (taskPk now : Nat) :
    ∀ (defs : List ItemDef) (idx : Nat) (is : List TaskItem),
      itemsFor users taskPk now idx defs = Except.ok is →
      is.map (fun i => i.order) = List.range' idx defs.length := by
  intro defs
  induction defs with
  | nil =>
      intro idx is h
      simp only [itemsFor] at h
      obtain rfl := (Except.ok.inj h).symm
      simp
  | cons d rest ih =>
      intro idx is h
      simp only [itemsFor] at h
      by_cases hek : (match d.executor_id with
        | none => true
        | some e => userExists users e) = true
      · rw [if_pos hek] at h
        cases hrec : itemsFor users taskPk now (idx + 1) rest with
        | error e =>
            rw [hrec] at h
            exact absurd h (by simp)
        | ok is' =>
            rw [hrec] at h
            obtain rfl := (Except.ok.inj h).symm
            have hmap := ih (idx + 1) is' hrec
            simp only [List.map_cons, save_fields_order, hmap, List.length_cons]
            rw [List.range'_succ]
      · rw [if_neg hek] at h
        exact absurd h (by simp)

/-- C6 (amended): task creation is all-or-nothing; on success it adds
exactly one Task row, `1 + |co_executors| + |observers|` TaskRole rows
(an assigner role for the requester, then one role per co-executor and
observer id, so co-executors [A,B] and observers [C] yield 4 TaskRole
rows, not 3), and one TaskItem per definition whose `order` equals its
position in the input list (0, 1, ...); when any step of the body
fails, the transaction rolls back and the state is unchanged. -/
theorem task_creation_orchestration (s : State) (requester : Nat)
    (title description : String) (co_executors observers : List Nat)
    (task_items : List ItemDef) (now : Nat) :
    (∀ s', TaskCreateSerializer.createBody s requester title description
        co_executors observers task_items now = Except.ok s' →
      s'.tasks.length = s.tasks.length + 1
      ∧ s'.roles.length = s.roles.length + (1 + co_executors.length + observers.length)
      ∧ (s'.roles.drop s.roles.length).map (fun r => r.user)
          = requester :: (co_executors ++ observers)
      ∧ (⟨s.roles.length, s.tasks.length + 1, requester, RoleKind.assigner⟩ : TaskRole)
          ∈ s'.roles
      ∧ s'.items.length = s.items.length + task_items.length
      ∧ (s'.items.drop s.items.length).map (fun i => i.order)
          = List.range task_items.length)
    ∧ (∀ e, TaskCreateSerializer.createBody s requester title description
        co_executors observers task_items now = Except.error e →
      TaskCreateSerializer.create s requester title description
        co_executors observers task_items now = (s, some e)) := by
  constructor
  · intro s' h
    simp only [TaskCreateSerializer.createBody] at h
    cases hco : rolesFor s.users (s.tasks.length + 1) (s.roles.length + 1)
        RoleKind.co_executor co_executors with
    | error e =>
        rw [hco] at h
        exact absurd h (by simp)
    | ok coRoles =>
        rw [hco] at h
        cases hobs : rolesFor s.users (s.tasks.length + 1)
            (s.roles.length + 1 + co_executors.length) RoleKind.observer observers with
        | error e =>
            rw [hobs] at h
            exact absurd h (by simp)
        | ok obsRoles =>
            rw [hobs] at h
            cases hit : itemsFor s.users (s.tasks.length + 1) now 0 task_items with
            | error e =>
                rw [hit] at h
                exact absurd h (by simp)
            | ok newItems =>
                rw [hit] at h
                obtain rfl := (Except.ok.inj h).symm
                obtain ⟨hcoLen, hcoMap, _⟩ :=
                  rolesFor_ok_spec s.users (s.tasks.length + 1) RoleKind.co_executor
                    co_executors (s.roles.length + 1) coRoles hco
                obtain ⟨hobsLen, hobsMap, _⟩ :=
                  rolesFor_ok_spec s.users (s.tasks.length + 1) RoleKind.observer
                    observers (s.roles.length + 1 + co_executors.length) obsRoles hobs
                have hitMap := itemsFor_ok_spec s.users (s.tasks.length + 1) now
                  task_items 0 newItems hit
                have hitLen : newItems.length = task_items.length := by
                  have := congrArg List.length hitMap
                  simpa using this
                refine ⟨by simp, ?_, ?_, ?_, by simp [hitLen], ?_⟩
                · simp [hcoLen, hobsLen]
                  omega
                · rw [List.drop_left]
                  simp [hcoMap, hobsMap]
                · simp
                · rw [List.drop_left]
                  rw [hitMap, List.range_eq_range']
  · intro e h
    unfold TaskCreateSerializer.create
    rw [h]

/-- C6 counterexample: the creation request with two co-executors and
one observer succeeds and produces 4 TaskRole rows (assigner plus
three participants), not 3 as claimed. -/
theorem task_creation_roles_count_counterexample :
    (TaskCreateSerializer.create sC6 1 "Complex Task" "Complex Description"
        [2, 3] [4] defsC6 0).2 = none
    ∧ createdC6.roles.length = 4
    ∧ ¬createdC6.roles.length = 3 := by
  refine ⟨by rfl, by rfl, by decide⟩

/-- C6 witness: on the example request the created state has 1 task,
4 roles headed by the requester's assigner role, and 2 items with
orders [0, 1]; a request naming nonexistent observer 99 rolls back to
the initial state. -/
theorem task_creation_orchestration_witness :
    createdC6.tasks.length = 1
    ∧ createdC6.roles.length = 4
    ∧ createdC6.items.length = 2
    ∧ createdC6.items.map (fun i => i.order) = [0, 1]
    ∧ TaskCreateSerializer.create sC6 1 "T" "D" [2, 3] [99] defsC6 0
        = (sC6, some "нарушение ограничения внешнего ключа") := by
  have hbody : TaskCreateSerializer.createBody sC6 1 "Complex Task" "Complex Description"
      [2, 3] [4] defsC6 0 = Except.ok createdC6 := by rfl
  have h := (task_creation_orchestration sC6 1 "Complex Task" "Complex Description"
    [2, 3] [4] defsC6 0).1 createdC6 hbody
  have hbad : TaskCreateSerializer.createBody sC6 1 "T" "D" [2, 3] [99] defsC6 0
      = Except.error "нарушение ограничения внешнего ключа" := by rfl
  have h2 := (task_creation_orchestration sC6 1 "T" "D" [2, 3] [99] defsC6 0).2 _ hbad
  refine ⟨?_, ?_, ?_, ?_, h2⟩
  · exact h.1
  · exact h.2.1
  · exact h.2.2.2.2.1
  · have h6 := h.2.2.2.2.2
    rw [show sC6.items.length = 0 from rfl, List.drop_zero] at h6
    exact h6.trans (by decide)

end TaskTracker
